import Mathlib

/-!
A shallow embedding of the ICS import pipeline of `calendar_app.py`
(class `CalendarApp`): the block parser (`parse_ics_file`), the datetime
parser (`parse_ics_datetime`), the import orchestrator with recurrence
expansion and per-date dedup (`import_ics_events`), the title classifier
(`parse_class_name`, built on a small backtracking regular-expression
engine mirroring Python's `re`), and the class-template synthesis
(`extract_class_templates_from_events`).

Python strings are Lean `String`s, but every operation is written over
`String.data` (lists of characters) so that all definitions reduce in the
kernel.  Python `dict`s (insertion ordered) are association lists; Python
`datetime.datetime` is a record of numerals; `datetime.date` ordinals are
`Nat` (proleptic-Gregorian day numbers, `date.toordinal` semantics).
`datetime.datetime.now()` is passed in as an explicit parameter `now`.
Exceptions are `Option`/explicit branches at the granularity the source
catches them.
-/

/-! ## String primitives (Python semantics, over character lists) -/

/-- Python whitespace as stripped by `str.strip()` (ASCII subset). -/
def isPyWS (c : Char) : Bool :=
  c = ' ' || c = '\t' || c = '\n' || c = '\r' || c = '\x0b' || c = '\x0c'

/-- Python `str.strip()`. -/
def pyStrip (s : String) : String :=
  String.mk (((s.data.dropWhile isPyWS).reverse.dropWhile isPyWS).reverse)

/-- Membership of a character (Python `c in s`). -/
def strHasChar (s : String) (c : Char) : Bool :=
  s.data.contains c

/-- `List`-level split on a non-overlapping separator, leftmost first
(Python `str.split(sep)` semantics).  `fuel` bounds recursion; callers
supply the input length, which always suffices. -/
def splitL (sep : List Char) : Nat → List Char → List Char → List (List Char)
  | _, [], acc => [acc.reverse]
  | 0, s, acc => [acc.reverse ++ s]
  | fuel + 1, c :: rest, acc =>
    if sep ≠ [] ∧ sep.isPrefixOf (c :: rest) then
      acc.reverse :: splitL sep fuel ((c :: rest).drop sep.length) []
    else
      splitL sep fuel rest (c :: acc)

/-- Python `s.split(sep)` for a nonempty separator. -/
def pySplit (s sep : String) : List String :=
  (splitL sep.data (s.data.length + 1) s.data []).map String.mk

/-- Python `sep.join`-style interleaving used to realize `str.replace`. -/
def joinSep (sep : List Char) : List (List Char) → List Char
  | [] => []
  | [x] => x
  | x :: y :: r => x ++ sep ++ joinSep sep (y :: r)

/-- Python `s.replace(pat, rep)` for a nonempty pattern: split on every
occurrence and re-join with the replacement. -/
def pyReplace (s pat rep : String) : String :=
  String.mk (joinSep rep.data (splitL pat.data (s.data.length + 1) s.data []))

/-- Python `pat in s` substring test. -/
def hasSubstr (s pat : String) : Bool :=
  (splitL pat.data (s.data.length + 1) s.data []).length > 1

/-- Python `s.split(c, 1)[0]` / `[1]`: the parts before and after the first
occurrence of character `c`. -/
def beforeChar (s : String) (c : Char) : String :=
  String.mk (s.data.takeWhile (· ≠ c))

/-- See `beforeChar`; the part after the first occurrence of `c`. -/
def afterChar (s : String) (c : Char) : String :=
  String.mk ((s.data.dropWhile (· ≠ c)).tail)

/-- Python `s.startswith(p)`. -/
def strStartsWith (s p : String) : Bool :=
  p.data.isPrefixOf s.data

/-- `s[:n]` prefix slice. -/
def strTake (s : String) (n : Nat) : String :=
  String.mk (s.data.take n)

/-! ## Calendar arithmetic (`datetime.date` semantics) -/

/-- Gregorian leap year, as `calendar.isleap` / `datetime` use it. -/
def isLeap (y : Nat) : Bool :=
  (y % 4 = 0 && y % 100 ≠ 0) || y % 400 = 0

/-- Days in a month of the proleptic Gregorian calendar. -/
def daysInMonth (y m : Nat) : Nat :=
  if m = 2 then (if isLeap y then 29 else 28)
  else if m = 4 ∨ m = 6 ∨ m = 9 ∨ m = 11 then 30
  else 31

/-- Days in the months strictly before month `m` of year `y`. -/
def daysBeforeMonth (y m : Nat) : Nat :=
  (List.range' 1 (m - 1)).foldl (fun a mm => a + daysInMonth y mm) 0

/-- `datetime.date(y, m, d).toordinal()`: day number with 0001-01-01 = 1. -/
def dateOrd (y m d : Nat) : Nat :=
  365 * (y - 1) + ((y - 1) / 4 - (y - 1) / 100 + (y - 1) / 400)
    + daysBeforeMonth y m + d

/-- `datetime.date.fromordinal`: inverse of `dateOrd` on valid dates
(standard civil-from-days computation over 400-year eras). -/
def civilFromOrd (n : Nat) : Nat × Nat × Nat :=
  let z := n + 305
  let era := z / 146097
  let doe := z % 146097
  let yoe := (doe - doe / 1460 + doe / 36524 - doe / 146096) / 365
  let y0 := yoe + era * 400
  let doy := doe - (365 * yoe + yoe / 4 - yoe / 100)
  let mp := (5 * doy + 2) / 153
  let d := doy - (153 * mp + 2) / 5 + 1
  let m := if mp < 10 then mp + 3 else mp - 9
  (if m ≤ 2 then y0 + 1 else y0, m, d)

/-- `date.weekday()` of an ordinal: Monday = 0 (0001-01-01 is a Monday). -/
def weekdayOfOrd (n : Nat) : Nat :=
  (n + 6) % 7

/-- Zero-padded two-digit numeral (`%H`, `%M`, `%m`, `%d` formatting). -/
def two (n : Nat) : String :=
  (if n < 10 then "0" else "") ++ toString n

/-- Zero-padded four-digit year (`date.isoformat` year field). -/
def four (n : Nat) : String :=
  (if n < 10 then "000" else if n < 100 then "00" else if n < 1000 then "0" else "")
    ++ toString n

/-- `date.isoformat()` of the date with ordinal `n`. -/
def isoOfOrd (n : Nat) : String :=
  let c := civilFromOrd n
  four c.1 ++ "-" ++ two c.2.1 ++ "-" ++ two c.2.2

/-- `date(y, m, d).isoformat()`. -/
def isoDate (y m d : Nat) : String :=
  four y ++ "-" ++ two m ++ "-" ++ two d

/-! ## `datetime.datetime` and `parse_ics_datetime` -/

/-- A Python `datetime.datetime` value (microseconds unused by the app). -/
structure PyDateTime where
  year : Nat
  month : Nat
  day : Nat
  hour : Nat
  minute : Nat
  second : Nat
deriving DecidableEq, Repr

/-- Digits-to-number for a fixed-width all-digit field. -/
def digToNat (cs : List Char) : Nat :=
  cs.foldl (fun a c => a * 10 + (c.toNat - 48)) 0

/-- `datetime.strptime(s, "%Y%m%d")` on an 8-character slice: all digits,
4+2+2 split, with the validity checks `strptime`/`datetime` enforce
(year ≥ 1, month 1–12, day within the month).  `none` models the
`ValueError` the call raises otherwise. -/
def strptime8 (s : String) : Option (Nat × Nat × Nat) :=
  let cs := s.data
  if cs.length = 8 ∧ cs.all Char.isDigit then
    let y := digToNat (cs.take 4)
    let m := digToNat ((cs.drop 4).take 2)
    let d := digToNat (cs.drop 6)
    if 1 ≤ y ∧ 1 ≤ m ∧ m ≤ 12 ∧ 1 ≤ d ∧ d ≤ daysInMonth y m then
      some (y, m, d)
    else none
  else none

/-- `datetime.strptime(s, "%Y%m%dT%H%M%S")` on a 15-character slice;
`none` models `ValueError`. -/
def strptime15 (s : String) : Option PyDateTime :=
  let cs := s.data
  if cs.length = 15 ∧ (cs.take 8).all Char.isDigit ∧ cs.getD 8 ' ' = 'T'
      ∧ (cs.drop 9).all Char.isDigit then
    match strptime8 (String.mk (cs.take 8)) with
    | none => none
    | some (y, m, d) =>
      let hh := digToNat ((cs.drop 9).take 2)
      let mi := digToNat ((cs.drop 11).take 2)
      let ss := digToNat (cs.drop 13)
      if hh ≤ 23 ∧ mi ≤ 59 ∧ ss ≤ 59 then some ⟨y, m, d, hh, mi, ss⟩ else none
  else none

/-- `dt_string.split(':', 1)[1]`: `none` models the `IndexError` raised when
the string holds no colon. -/
def tzStrip (s : String) : Option String :=
  if strHasChar s ':' then some (afterChar s ':') else none

/-- `CalendarApp.parse_ics_datetime(dt_string, default_date)`.  The inner
value `none` of the `body` is Python's implicit `None` return (falling off
the `try` block); the outer `none` of `body` is an exception inside the
`try`, answered by `default_date or datetime.datetime.now()`. -/
def parse_ics_datetime (dt_string : String) (default_date : Option PyDateTime)
    (now : PyDateTime) : Option PyDateTime :=
  let body : Option (Option PyDateTime) :=
    match (if hasSubstr dt_string "TZID=" then tzStrip dt_string else some dt_string) with
    | none => none
    | some s =>
      if strHasChar s 'T' then
        if 15 ≤ s.data.length then
          match strptime15 (strTake s 15) with
          | some dt => some (some dt)
          | none => none
        else some none
      else
        if 8 ≤ s.data.length then
          match strptime8 (strTake s 8) with
          | some (y, m, d) => some (some ⟨y, m, d, 0, 0, 0⟩)
          | none => none
        else some none
  match body with
  | some r => r
  | none => some (default_date.getD now)

/-! ## The event store and the merge/dedup engine -/

/-- A persisted calendar event (the dict built by `import_ics_events`). -/
structure ConcreteEvent where
  title : String
  description : String
  location : String
  start_time : String
  end_time : String
  all_day : Bool
  category : String
  imported_from : String
deriving DecidableEq, Repr

/-- `self.events`: a Python dict from ISO date string to event list,
insertion ordered, as an association list. -/
abbrev Store := List (String × List ConcreteEvent)

/-- First-match association lookup (Python dict lookup). -/
def sLookup {α : Type} (k : String) : List (String × α) → Option α
  | [] => none
  | p :: r => if p.1 = k then some p.2 else sLookup k r

/-- `self.events[date_str]` with a missing key read as `[]` (the source
only reads a key after ensuring it exists). -/
def getList (s : Store) (k : String) : List ConcreteEvent :=
  (sLookup k s).getD []

/-- `if date_str not in self.events: self.events[date_str] = []`. -/
def ensureKey (s : Store) (k : String) : Store :=
  if (sLookup k s).isSome then s else s ++ [(k, [])]

/-- `self.events[date_str].append(e)`: in-place append under key `k`. -/
def appendAt (s : Store) (k : String) (e : ConcreteEvent) : Store :=
  s.map (fun p => if p.1 = k then (p.1, p.2 ++ [e]) else p)

/-- `calendar_event = event.copy(); calendar_event['category'] = 'class'`. -/
def mkClassEvent (ev : ConcreteEvent) : ConcreteEvent :=
  { ev with category := "class" }

/-- One insertion step of `import_ics_events` (both the recurring and the
single-event branch): ensure the date key, test `any(e['title'] ==
event['title'] and e['start_time'] == event['start_time'])`, and append
the `'class'`-category copy only if no such duplicate exists.  Returns the
new store and whether the event was inserted. -/
def insert_import_event (s : Store) (k : String) (ev : ConcreteEvent) :
    Store × Bool :=
  let s1 := ensureKey s k
  let lst := getList s1 k
  let dup := lst.any (fun e => e.title == ev.title && e.start_time == ev.start_time)
  if dup then (s1, false) else (appendAt s1 k (mkClassEvent ev), true)

/-! ## The block parser (`parse_ics_file`) -/

/-- A raw VEVENT record: field name to raw value, insertion ordered. -/
abbrev RawRecord := List (String × String)

/-- `current_event[key] = value`: dict assignment (overwrite in place,
else append). -/
def recSet (r : RawRecord) (k v : String) : RawRecord :=
  if (sLookup k r).isSome then
    r.map (fun p => if p.1 = k then (k, v) else p)
  else r ++ [(k, v)]

/-- `record.get(k, dflt)`. -/
def lookupD (r : RawRecord) (k dflt : String) : String :=
  (sLookup k r).getD dflt

/-- The parser's loop state: emitted records, the record under
construction, and the `in_vevent` flag. -/
structure PState where
  events : List RawRecord
  cur : RawRecord
  inv : Bool

/-- One iteration of the `for line in content.split('\n')` loop of
`parse_ics_file`.  The line is stripped first; the source then re-tests
`line.startswith(' ') or line.startswith('\t')` for continuations, a test
that can no longer succeed after the strip (kept verbatim here). -/
def procLine (st : PState) (raw : String) : PState :=
  let line := pyStrip raw
  if line = "BEGIN:VEVENT" then
    { st with inv := true, cur := [] }
  else if line = "END:VEVENT" then
    { events := if st.inv ∧ st.cur ≠ [] then st.events ++ [st.cur] else st.events,
      cur := [], inv := false }
  else if st.inv ∧ strHasChar line ':' then
    if strStartsWith line " " || strStartsWith line "\t" then st
    else
      let key0 := beforeChar line ':'
      let value := afterChar line ':'
      let key := if strHasChar key0 ';' then beforeChar key0 ';' else key0
      { st with cur := recSet st.cur key value }
  else st

/-- `CalendarApp.parse_ics_file` on already-read file content (the
file-read `try/except` that returns `[]` is outside this embedding's
input boundary). -/
def parse_ics_file (content : String) : List RawRecord :=
  ((pySplit content "\n").foldl procLine ⟨[], [], false⟩).events

/-! ## Recurrence-rule field extraction (`re.search` on the RRULE) -/

/-- `re.search(r'UNTIL=(\d{8})', rrule)`: scan left to right for
`UNTIL=` followed by eight digits; the group is those eight digits. -/
def searchUntil : List Char → Option (List Char)
  | [] => none
  | c :: rest =>
    (if ("UNTIL=".data).isPrefixOf (c :: rest) then
      let d8 := ((c :: rest).drop 6).take 8
      if d8.length = 8 ∧ d8.all Char.isDigit then some d8 else none
     else none).orElse (fun _ => searchUntil rest)

/-- `re.search(r'BYDAY=([^;]+)', rrule)`: scan left to right for `BYDAY=`
followed by at least one non-`;` character; the group is the maximal such
run. -/
def searchByday : List Char → Option (List Char)
  | [] => none
  | c :: rest =>
    (if ("BYDAY=".data).isPrefixOf (c :: rest) then
      let g := ((c :: rest).drop 6).takeWhile (· ≠ ';')
      if 1 ≤ g.length then some g else none
     else none).orElse (fun _ => searchByday rest)

/-- The `day_map` dict (`weekday()` numbering, Monday = 0). -/
def dayMap : String → Option Nat
  | "MO" => some 0
  | "TU" => some 1
  | "WE" => some 2
  | "TH" => some 3
  | "FR" => some 4
  | "SA" => some 5
  | "SU" => some 6
  | _ => none

/-- `any(day_map.get(day) == weekday for day in days)` at the date with
ordinal `n`. -/
def bydayMatches (days : List String) (n : Nat) : Bool :=
  days.any (fun dy => dayMap dy == some (weekdayOfOrd n))

/-- The `UNTIL` bound of a weekly rule as a date ordinal: the parsed
8-digit `UNTIL` group when present (`none` models the `ValueError` its
`strptime` raises on an invalid date), else the fixed fallback
`date(2025, 12, 31)`. -/
def untilOrdOf (rrule : String) : Option Nat :=
  match searchUntil rrule.data with
  | none => some (dateOrd 2025 12 31)
  | some u8 =>
    (strptime8 (String.mk u8)).map (fun t => dateOrd t.1 t.2.1 t.2.2)

/-- `datetime.datetime.strftime('%H:%M')`. -/
def fmtHM (dt : PyDateTime) : String :=
  two dt.hour ++ ":" ++ two dt.minute

/-! ## The import orchestrator (`import_ics_events`) -/

/-- The per-record work of `import_ics_events` up to (but not including)
the store insertions: the seed `ConcreteEvent` dict and the ordered list
of ISO date keys it is to be inserted under.  `none` models the record
being skipped: a falsy `start_dt`, or an exception caught by the
per-record `except` (the `AttributeError` from `end_dt.strftime` when
`parse_ics_datetime` returned `None` for `DTEND`, and the `ValueError`
from `strptime` on an invalid `UNTIL` date). -/
def record_plan (rec : RawRecord) (now : PyDateTime) :
    Option (ConcreteEvent × List String) :=
  let summary := lookupD rec "SUMMARY" "Untitled Event"
  let description := pyReplace (lookupD rec "DESCRIPTION" "") "\\n" "\n"
  let location := lookupD rec "LOCATION" ""
  match parse_ics_datetime (lookupD rec "DTSTART" "") none now with
  | none => none
  | some start_dt =>
    match parse_ics_datetime (lookupD rec "DTEND" "") (some start_dt) now with
    | none => none
    | some end_dt =>
      let ev : ConcreteEvent :=
        ⟨summary, description, location, fmtHM start_dt, fmtHM end_dt,
         false, "imported", "ics"⟩
      let rrule := lookupD rec "RRULE" ""
      if hasSubstr rrule "FREQ=WEEKLY" then
        match searchByday rrule.data with
        | none => some (ev, [])
        | some daysStr =>
          let days := pySplit (String.mk daysStr) ","
          match untilOrdOf rrule with
          | none => none
          | some uOrd =>
            let sOrd := dateOrd start_dt.year start_dt.month start_dt.day
            some (ev,
              ((List.range' sOrd (uOrd + 1 - sOrd)).filter
                (bydayMatches days)).map isoOfOrd)
      else
        some (ev, [isoDate start_dt.year start_dt.month start_dt.day])

/-- Process one parsed record against the store: run `record_plan` and
perform the dedup-checked insertions in date order, counting how many
events were actually appended. -/
def process_record (store : Store) (rec : RawRecord) (now : PyDateTime) :
    Store × Nat :=
  match record_plan rec now with
  | none => (store, 0)
  | some (ev, ks) =>
    ks.foldl
      (fun p k =>
        let r := insert_import_event p.1 k ev
        (r.1, p.2 + (if r.2 then 1 else 0)))
      (store, 0)

/-- `import_ics_events` over an explicit record list (the body of the
`for i, ics_event in enumerate(events)` loop plus the running
`imported_count`). -/
def import_records (store : Store) (recs : List RawRecord) (now : PyDateTime) :
    Store × Nat :=
  recs.foldl
    (fun p rec =>
      let r := process_record p.1 rec now
      (r.1, p.2 + r.2))
    (store, 0)

/-- `CalendarApp.import_ics_events`: parse the file content, fold every
record into the store, and return the updated store with the imported
count.  (The trailing `save_events`/`update_calendar`/template extraction
do not touch `self.events`.) -/
def import_ics_events (store : Store) (content : String) (now : PyDateTime) :
    Store × Nat :=
  import_records store (parse_ics_file content) now

/-! ## A backtracking regular-expression engine (Python `re` semantics
for the constructs `parse_class_name` uses: character classes,
concatenation, left-preferring alternation, greedy and lazy repetition,
capture groups, and the `$` anchor).  ASCII classes model `[A-Z]`, `\d`,
`\s`, `.` as the titles at hand use them. -/

/-- Regular-expression abstract syntax. -/
inductive Re where
  | eps : Re
  | eos : Re
  | cls : (Char → Bool) → Re
  | cat : Re → Re → Re
  | alt : Re → Re → Re
  | star : Bool → Re → Re
  | grp : Nat → Re → Re

/-- Node count, used to bound the engine's recursion depth. -/
def reSize : Re → Nat
  | .eps => 1
  | .eos => 1
  | .cls _ => 1
  | .cat a b => reSize a + reSize b + 1
  | .alt a b => reSize a + reSize b + 1
  | .star _ a => reSize a + 1
  | .grp _ a => reSize a + 1

/-- Backtracking matcher in continuation style over the fixed subject
`s`: position `i`, recorded captures `(group, from, to)` (latest first),
and success continuation `k`.  Alternation prefers its left branch;
a greedy `star` tries one more iteration before the continuation, a lazy
one the continuation first; iterations must consume input (all repeated
sub-patterns here are non-nullable, as in the source's regexes).  `$`
matches at the end of the subject or before a final newline.  `fuel`
bounds the recursion depth and is always supplied large enough. -/
def reRun (s : List Char) : Nat → Re → Nat → List (Nat × Nat × Nat) →
    (Nat → List (Nat × Nat × Nat) → Option (Nat × List (Nat × Nat × Nat))) →
    Option (Nat × List (Nat × Nat × Nat))
  | 0, _, _, _, _ => none
  | fuel + 1, r, i, caps, k =>
    match r with
    | .eps => k i caps
    | .eos =>
      if i = s.length ∨ (i + 1 = s.length ∧ s.getD i ' ' = '\n') then k i caps
      else none
    | .cls p =>
      if i < s.length ∧ p (s.getD i ' ') then k (i + 1) caps else none
    | .cat a b => reRun s fuel a i caps (fun j cs => reRun s fuel b j cs k)
    | .alt a b =>
      match reRun s fuel a i caps k with
      | some x => some x
      | none => reRun s fuel b i caps k
    | .grp idx a => reRun s fuel a i caps (fun j cs => k j ((idx, i, j) :: cs))
    | .star g a =>
      let once := fun (_ : Unit) =>
        reRun s fuel a i caps
          (fun j cs => if i < j then reRun s fuel (.star g a) j cs k else none)
      if g then
        match once () with
        | some x => some x
        | none => k i caps
      else
        match k i caps with
        | some x => some x
        | none => once ()

/-- Depth bound sufficient for `reRun` on subject `s`. -/
def reFuel (r : Re) (s : List Char) : Nat :=
  (s.length + 2) * (reSize r + 2)

/-- Attempt a match of `r` anchored at position `i`; on success, the match
end and the captures. -/
def reMatchAt (r : Re) (s : String) (i : Nat) :
    Option (Nat × List (Nat × Nat × Nat)) :=
  reRun s.data (reFuel r s.data) r i [] (fun j cs => some (j, cs))

/-- `re.match(r, s)`: anchored at the start only. -/
def reMatch (r : Re) (s : String) : Option (Nat × List (Nat × Nat × Nat)) :=
  reMatchAt r s 0

/-- Left-to-right scan for `re.search`, trying each start position. -/
def reSearchAux (r : Re) (s : String) : Nat → Nat →
    Option (Nat × Nat × List (Nat × Nat × Nat))
  | 0, _ => none
  | fuel + 1, i =>
    match reMatchAt r s i with
    | some (j, cs) => some (i, j, cs)
    | none => if i < s.data.length then reSearchAux r s fuel (i + 1) else none

/-- `re.search(r, s)`: start, end, and captures of the leftmost match. -/
def reSearch (r : Re) (s : String) :
    Option (Nat × Nat × List (Nat × Nat × Nat)) :=
  reSearchAux r s (s.data.length + 1) 0

/-- `match.group(idx)`: the latest capture recorded for the group. -/
def capGroup (s : String) (caps : List (Nat × Nat × Nat)) (idx : Nat) : String :=
  match caps.find? (fun t => t.1 == idx) with
  | some t => String.mk ((s.data.drop t.2.1).take (t.2.2 - t.2.1))
  | none => ""

/-- `re.sub(r, '', s)`: delete every leftmost non-overlapping match,
advancing one character past a zero-width match (the patterns substituted
in the source can never match the empty string). -/
def reSubEmptyAux (r : Re) (s : String) : Nat → Nat → List Char → List Char
  | 0, _, acc => acc.reverse
  | fuel + 1, i, acc =>
    if i < s.data.length then
      match reMatchAt r s i with
      | some (j, _) =>
        if i < j then reSubEmptyAux r s fuel j acc
        else reSubEmptyAux r s fuel (i + 1) (s.data.getD i ' ' :: acc)
      | none => reSubEmptyAux r s fuel (i + 1) (s.data.getD i ' ' :: acc)
    else acc.reverse

/-- See `reSubEmptyAux`. -/
def reSubEmpty (r : Re) (s : String) : String :=
  String.mk (reSubEmptyAux r s (s.data.length + 1) 0 [])

/-- A single literal character. -/
def lit1 (c : Char) : Re := .cls (· = c)

/-- A literal string. -/
def litS (t : String) : Re := t.data.foldr (fun c r => .cat (lit1 c) r) .eps

/-- `+` (greedy when `g`, lazy otherwise). -/
def rePlus (g : Bool) (a : Re) : Re := .cat a (.star g a)

/-- `?` (greedy when `g`). -/
def reOpt (g : Bool) (a : Re) : Re := if g then .alt a .eps else .alt .eps a

/-- Greedy `a{0,k}`. -/
def repOpt (a : Re) : Nat → Re
  | 0 => .eps
  | k + 1 => reOpt true (.cat a (repOpt a k))

/-- Greedy `a{m,n}` (`m ≤ n`). -/
def reRep (a : Re) (m n : Nat) : Re :=
  (List.replicate m a).foldr .cat (repOpt a (n - m))

/-! ## The title classifier (`parse_class_name`) -/

/-- `\s+`. -/
def wsPlus : Re := rePlus true (.cls isPyWS)

/-- `.` (any character but a newline). -/
def dotRe : Re := .cls (· ≠ '\n')

/-- `[A-Z]{m,n}`. -/
def upperR (m n : Nat) : Re := reRep (.cls Char.isUpper) m n

/-- `\d{m,n}`. -/
def digitR (m n : Nat) : Re := reRep (.cls Char.isDigit) m n

/-- `[A-Z]{2,4}\s+\d{3}`, the course-code pattern of Patterns 1 and 3. -/
def codeRe : Re := .cat (upperR 2 4) (.cat wsPlus (digitR 3 3))

/-- Pattern 1: `^(.+?)\s+([A-Z]{2,4}\s+\d{3})\s+[A-Z]{1,3}\d*$`. -/
def pattern1 : Re :=
  .cat (.grp 1 (rePlus false dotRe))
    (.cat wsPlus (.cat (.grp 2 codeRe)
      (.cat wsPlus (.cat (upperR 1 3)
        (.cat (.star true (.cls Char.isDigit)) .eos)))))

/-- Pattern 2: `^([A-Z]{2,4}\s*\d{3})\s+(.+?)(\s+[A-Z]{1,3}\d*)?$`. -/
def pattern2 : Re :=
  .cat (.grp 1 (.cat (upperR 2 4) (.cat (.star true (.cls isPyWS)) (digitR 3 3))))
    (.cat wsPlus (.cat (.grp 2 (rePlus false dotRe))
      (.cat (reOpt true (.grp 3 (.cat wsPlus
        (.cat (upperR 1 3) (.star true (.cls Char.isDigit)))))) .eos)))

/-- `AL\d*|AD\d*|Lab|Discussion|Lecture|BYA|BL\d*|AB\d*`. -/
def sectionAlt : Re :=
  .alt (.cat (litS "AL") (.star true (.cls Char.isDigit)))
  (.alt (.cat (litS "AD") (.star true (.cls Char.isDigit)))
  (.alt (litS "Lab")
  (.alt (litS "Discussion")
  (.alt (litS "Lecture")
  (.alt (litS "BYA")
  (.alt (.cat (litS "BL") (.star true (.cls Char.isDigit)))
        (.cat (litS "AB") (.star true (.cls Char.isDigit)))))))))

/-- Pattern 2's suffix scrub:
`\s+(AL\d*|AD\d*|Lab|Discussion|Lecture|BYA|BL\d*|AB\d*).*$`. -/
def subPattern2 : Re :=
  .cat wsPlus (.cat (.grp 1 sectionAlt) (.cat (.star true dotRe) .eos))

/-- The trailing-section scrub of Patterns 3 and 4: `\s+[A-Z]{1,3}\d*$`. -/
def tailSection : Re :=
  .cat wsPlus (.cat (upperR 1 3) (.cat (.star true (.cls Char.isDigit)) .eos))

/-- Pattern 4's trigger: `[A-Z]{2,4}\s+\d{2,3}`. -/
def pattern4 : Re := .cat (upperR 2 4) (.cat wsPlus (digitR 2 3))

/-- `CalendarApp.parse_class_name`: the prioritized cascade, first match
wins, `none` when nothing matches. -/
def parse_class_name (event_title : String) : Option String :=
  if event_title = "" then none
  else
    let title := pyStrip event_title
    let title := pyReplace title "&amp;" "&"
    match reMatch pattern1 title with
    | some (_, caps) =>
      let subject := pyStrip (capGroup title caps 1)
      let course_code := pyStrip (capGroup title caps 2)
      some (course_code ++ " - " ++ subject)
    | none =>
      match reMatch pattern2 title with
      | some (_, caps) =>
        let course_code := pyStrip (capGroup title caps 1)
        let subject := pyStrip (capGroup title caps 2)
        let subject := reSubEmpty subPattern2 subject
        some (course_code ++ " - " ++ subject)
      | none =>
        match reSearch (.grp 1 codeRe) title with
        | some (_, _, caps) =>
          let course_code := capGroup title caps 1
          let remaining := pyStrip (pyReplace title course_code "")
          let remaining := reSubEmpty tailSection remaining
          if remaining ≠ "" ∧ 2 < remaining.data.length then
            some (course_code ++ " - " ++ remaining)
          else some course_code
        | none =>
          match reSearch pattern4 title with
          | some _ => some (pyStrip (reSubEmpty tailSection title))
          | none => none

/-! ## Class-template synthesis (`extract_class_templates_from_events`) -/

/-- One task-template entry. -/
structure TaskTemplate where
  title : String
  description : String
  priority : String
deriving DecidableEq, Repr

/-- `self.class_templates`: class identifier to task list, as a Python
dict (insertion-ordered association list). -/
abbrev ClassTemplates := List (String × List TaskTemplate)

/-- The four fixed task templates synthesized for an ICS-derived class,
with the class identifier interpolated into each description. -/
def class_task_templates (class_name : String) : List TaskTemplate :=
  [⟨"Review today's material",
    "Review notes and materials from " ++ class_name, "medium"⟩,
   ⟨"Complete homework/assignments",
    "Work on any assignments for " ++ class_name, "high"⟩,
   ⟨"Prepare for next class",
    "Read ahead and prepare for next " ++ class_name ++ " session", "medium"⟩,
   ⟨"Study/practice problems",
    "Practice problems or study concepts from " ++ class_name, "medium"⟩]

/-- The `extracted_classes` dict built by
`extract_class_templates_from_events`: walk the event store in order, and
for every event imported from ICS whose title classifies to a (truthy)
class name not yet present, add the four fixed templates under it. -/
def extract_classes (events : Store) : ClassTemplates :=
  events.foldl
    (fun acc p =>
      p.2.foldl
        (fun acc e =>
          if e.imported_from = "ics" then
            match parse_class_name e.title with
            | some cn =>
              if cn ≠ "" ∧ (sLookup cn acc).isNone then
                acc ++ [(cn, class_task_templates cn)]
              else acc
            | none => acc
          else acc)
        acc)
    []

/-- Python `base.update(upd)`: overwrite the values of existing keys in
place, append new keys in `upd` order. -/
def dictUpdate (base upd : ClassTemplates) : ClassTemplates :=
  (base.map (fun p =>
    match sLookup p.1 upd with
    | some v => (p.1, v)
    | none => p))
  ++ upd.filter (fun q => (sLookup q.1 base).isNone)

/-- The merge step of `extract_class_templates_from_events`:
`if extracted_classes: self.class_templates.update(extracted_classes)`. -/
def merge_class_templates (ct ex : ClassTemplates) : ClassTemplates :=
  if ex = [] then ct else dictUpdate ct ex

/-! ## Store lemmas -/

theorem sLookup_append {α : Type} (k : String) (a b : List (String × α)) :
    sLookup k (a ++ b) = ((sLookup k a).orElse (fun _ => sLookup k b)) := by
  induction a with
  | nil => simp [sLookup]
  | cons p r ih =>
    by_cases h : p.1 = k <;> simp [sLookup, h, ih]

theorem sLookup_appendAt (s : Store) (k0 k : String) (e : ConcreteEvent) :
    sLookup k (appendAt s k0 e) =
      if k = k0 then (sLookup k s).map (fun l => l ++ [e]) else sLookup k s := by
  induction s with
  | nil => by_cases h : k = k0 <;> simp [sLookup, appendAt, h]
  | cons p r ih =>
    simp only [appendAt, List.map_cons] at ih ⊢
    by_cases hp : p.1 = k0
    · subst hp
      by_cases hk : p.1 = k
      · subst hk
        simp [sLookup]
      · have hk' : ¬(k = p.1) := fun h => hk h.symm
        simp [sLookup, hk, hk', ih]
    · by_cases hk : p.1 = k
      · subst hk
        have hk0 : ¬(p.1 = k0) := hp
        simp [sLookup, hp, hk0]
      · simp [sLookup, hp, hk, ih]

theorem sLookup_ensureKey_self (s : Store) (k : String) :
    sLookup k (ensureKey s k) = some (getList s k) := by
  unfold ensureKey getList
  cases hv : sLookup k s
  · simp [hv, sLookup_append, sLookup]
  · simp [hv]

theorem sLookup_ensureKey_ne (s : Store) (k0 k : String) (h : k ≠ k0) :
    sLookup k (ensureKey s k0) = sLookup k s := by
  unfold ensureKey
  cases hv : sLookup k0 s
  · simp only [hv, Option.isSome_none, Bool.false_eq_true, if_neg, not_false_iff]
    rw [sLookup_append]
    simp only [sLookup, if_neg (Ne.symm h)]
    cases sLookup k s <;> rfl
  · simp [hv]

theorem getList_ensureKey_self (s : Store) (k : String) :
    getList (ensureKey s k) k = getList s k := by
  unfold getList
  rw [sLookup_ensureKey_self]
  rfl

theorem getList_ensureKey_ne (s : Store) (k0 k : String) (h : k ≠ k0) :
    getList (ensureKey s k0) k = getList s k := by
  unfold getList
  rw [sLookup_ensureKey_ne s k0 k h]

/-- Normal form of the merge/dedup step: duplicate test against the
existing per-date list, else append of the `'class'` copy. -/
theorem insert_import_event_eq (s : Store) (k : String) (ev : ConcreteEvent) :
    insert_import_event s k ev =
      if (getList s k).any (fun e => e.title == ev.title && e.start_time == ev.start_time)
      then (ensureKey s k, false)
      else (appendAt (ensureKey s k) k (mkClassEvent ev), true) := by
  simp only [insert_import_event]
  rw [getList_ensureKey_self]

theorem getList_insert (s : Store) (k0 k : String) (ev : ConcreteEvent) :
    ∃ t, getList (insert_import_event s k0 ev).1 k = getList s k ++ t := by
  rw [insert_import_event_eq]
  by_cases hd : ((getList s k0).any
      (fun e => e.title == ev.title && e.start_time == ev.start_time)) = true
  · rw [if_pos hd]
    refine ⟨[], ?_⟩
    rw [List.append_nil]
    by_cases hk : k = k0
    · subst hk; exact getList_ensureKey_self s k
    · exact getList_ensureKey_ne s k0 k hk
  · rw [if_neg hd]
    by_cases hk : k = k0
    · subst hk
      refine ⟨[mkClassEvent ev], ?_⟩
      show (sLookup k (appendAt (ensureKey s k) k (mkClassEvent ev))).getD [] = _
      rw [sLookup_appendAt, if_pos rfl, sLookup_ensureKey_self]
      rfl
    · refine ⟨[], ?_⟩
      rw [List.append_nil]
      show (sLookup k (appendAt (ensureKey s k0) k0 (mkClassEvent ev))).getD [] = _
      rw [sLookup_appendAt, if_neg hk, sLookup_ensureKey_ne s k0 k hk]
      rfl

/-! ## Duplicate-presence predicate and insertion facts -/

/-- Some event under date `k` already carries the incoming event's
`(title, start_time)` key. -/
def Sat (s : Store) (k : String) (ev : ConcreteEvent) : Prop :=
  ∃ e ∈ getList s k, e.title = ev.title ∧ e.start_time = ev.start_time

theorem dup_eq_true_iff_sat (s : Store) (k : String) (ev : ConcreteEvent) :
    ((getList s k).any (fun e => e.title == ev.title && e.start_time == ev.start_time)) = true
      ↔ Sat s k ev := by
  simp [List.any_eq_true, Sat, Bool.and_eq_true, beq_iff_eq]

theorem ensureKey_of_isSome (s : Store) (k : String)
    (h : (sLookup k s).isSome) : ensureKey s k = s := by
  unfold ensureKey
  rw [if_pos h]

theorem sat_isSome (s : Store) (k : String) (ev : ConcreteEvent)
    (h : Sat s k ev) : (sLookup k s).isSome := by
  obtain ⟨e, he, -⟩ := h
  unfold getList at he
  cases hv : sLookup k s
  · rw [hv] at he; cases he
  · rfl

/-- A duplicate is not inserted and leaves the store untouched. -/
theorem insert_of_sat (s : Store) (k : String) (ev : ConcreteEvent)
    (h : Sat s k ev) : insert_import_event s k ev = (s, false) := by
  rw [insert_import_event_eq, if_pos ((dup_eq_true_iff_sat s k ev).mpr h),
    ensureKey_of_isSome s k (sat_isSome s k ev h)]

theorem getList_appendAt_ensure (s : Store) (k : String) (e : ConcreteEvent) :
    getList (appendAt (ensureKey s k) k e) k = getList s k ++ [e] := by
  show (sLookup k (appendAt (ensureKey s k) k e)).getD [] = _
  rw [sLookup_appendAt, if_pos rfl, sLookup_ensureKey_self]
  rfl

/-- After the insertion step the incoming key is present. -/
theorem sat_insert_self (s : Store) (k : String) (ev : ConcreteEvent) :
    Sat (insert_import_event s k ev).1 k ev := by
  rw [insert_import_event_eq]
  by_cases hd : ((getList s k).any
      (fun e => e.title == ev.title && e.start_time == ev.start_time)) = true
  · rw [if_pos hd]
    obtain ⟨e, he, hp⟩ := (dup_eq_true_iff_sat s k ev).mp hd
    exact ⟨e, by rw [getList_ensureKey_self]; exact he, hp⟩
  · rw [if_neg hd]
    refine ⟨mkClassEvent ev, ?_, by simp [mkClassEvent]⟩
    rw [getList_appendAt_ensure]
    simp

/-- Insertions never shrink any per-date list. -/
theorem sat_mono_insert (s : Store) (k' : String) (ev' : ConcreteEvent)
    (k : String) (ev : ConcreteEvent) (h : Sat s k ev) :
    Sat (insert_import_event s k' ev').1 k ev := by
  obtain ⟨t, ht⟩ := getList_insert s k' k ev'
  obtain ⟨e, he, hp⟩ := h
  exact ⟨e, by rw [ht]; exact List.mem_append_left t he, hp⟩

/-! ## Fold-level lemmas for the import loops -/

theorem sat_foldl_insert (now : PyDateTime) (ev' : ConcreteEvent) (ks : List String) :
    ∀ (p : Store × Nat) (k : String) (ev : ConcreteEvent), Sat p.1 k ev →
      Sat ((ks.foldl (fun p k =>
        let r := insert_import_event p.1 k ev'
        (r.1, p.2 + (if r.2 then 1 else 0))) p).1) k ev := by
  induction ks with
  | nil => intro p k ev h; exact h
  | cons k0 ks ih =>
    intro p k ev h
    rw [List.foldl_cons]
    exact ih _ k ev (sat_mono_insert p.1 k0 ev' k ev h)

theorem sat_foldl_all (now : PyDateTime) (ev' : ConcreteEvent) (ks : List String) :
    ∀ (p : Store × Nat) (k : String), k ∈ ks →
      Sat ((ks.foldl (fun p k =>
        let r := insert_import_event p.1 k ev'
        (r.1, p.2 + (if r.2 then 1 else 0))) p).1) k ev' := by
  induction ks with
  | nil => intro p k h; cases h
  | cons k0 ks ih =>
    intro p k h
    rw [List.foldl_cons]
    rcases List.mem_cons.mp h with rfl | hm
    · exact sat_foldl_insert now ev' ks _ k ev' (sat_insert_self p.1 k ev')
    · exact ih _ k hm

theorem foldl_insert_noop (ev : ConcreteEvent) (ks : List String) :
    ∀ (s : Store) (c : Nat), (∀ k ∈ ks, Sat s k ev) →
      ks.foldl (fun p k =>
        let r := insert_import_event p.1 k ev
        (r.1, p.2 + (if r.2 then 1 else 0))) (s, c) = (s, c) := by
  induction ks with
  | nil => intro s c _; rfl
  | cons k0 ks ih =>
    intro s c h
    rw [List.foldl_cons]
    show ks.foldl _ ((insert_import_event s k0 ev).1,
      c + (if (insert_import_event s k0 ev).2 then 1 else 0)) = (s, c)
    rw [insert_of_sat s k0 ev (h k0 (List.mem_cons_self k0 ks))]
    simpa using ih s c (fun k hk => h k (List.mem_cons_of_mem k0 hk))

theorem sat_mono_process (s : Store) (rec : RawRecord) (now : PyDateTime)
    (k : String) (ev : ConcreteEvent) (h : Sat s k ev) :
    Sat (process_record s rec now).1 k ev := by
  unfold process_record
  cases hp : record_plan rec now with
  | none => exact h
  | some pl => exact sat_foldl_insert now pl.1 pl.2 (s, 0) k ev h

/-- After a record is processed, every key of its plan holds a matching
event. -/
theorem sat_process_all (s : Store) (rec : RawRecord) (now : PyDateTime)
    (ev : ConcreteEvent) (ks : List String)
    (hp : record_plan rec now = some (ev, ks)) :
    ∀ k ∈ ks, Sat (process_record s rec now).1 k ev := by
  intro k hk
  unfold process_record
  rw [hp]
  exact sat_foldl_all now ev ks (s, 0) k hk

theorem process_record_of_sat (s : Store) (rec : RawRecord) (now : PyDateTime)
    (h : ∀ ev ks, record_plan rec now = some (ev, ks) → ∀ k ∈ ks, Sat s k ev) :
    process_record s rec now = (s, 0) := by
  unfold process_record
  cases hp : record_plan rec now with
  | none => rfl
  | some pl => exact foldl_insert_noop pl.1 pl.2 s 0 (h pl.1 pl.2 (by rw [hp]))

theorem import_fold_shift (now : PyDateTime) (recs : List RawRecord) :
    ∀ (s : Store) (c : Nat),
      recs.foldl (fun p rec =>
        let r := process_record p.1 rec now
        (r.1, p.2 + r.2)) (s, c)
      = ((import_records s recs now).1, c + (import_records s recs now).2) := by
  induction recs with
  | nil => intro s c; simp [import_records]
  | cons rec recs ih =>
    intro s c
    rw [List.foldl_cons]
    show recs.foldl _ ((process_record s rec now).1, c + (process_record s rec now).2) = _
    rw [ih]
    unfold import_records
    rw [List.foldl_cons]
    show _ = ((recs.foldl _ ((process_record s rec now).1,
        0 + (process_record s rec now).2)).1,
      c + (recs.foldl _ ((process_record s rec now).1,
        0 + (process_record s rec now).2)).2)
    rw [Nat.zero_add, ih (process_record s rec now).1 (process_record s rec now).2]
    have h2 := ih (process_record s rec now).1 0
    simp [import_records, Nat.add_assoc]

theorem import_records_cons (s : Store) (rec : RawRecord) (recs : List RawRecord)
    (now : PyDateTime) :
    import_records s (rec :: recs) now =
      ((import_records (process_record s rec now).1 recs now).1,
       (process_record s rec now).2
         + (import_records (process_record s rec now).1 recs now).2) := by
  unfold import_records
  rw [List.foldl_cons]
  show recs.foldl _ ((process_record s rec now).1, 0 + (process_record s rec now).2) = _
  rw [Nat.zero_add]
  exact import_fold_shift now recs (process_record s rec now).1 (process_record s rec now).2

theorem sat_mono_records (recs : List RawRecord) (now : PyDateTime) :
    ∀ (s : Store) (k : String) (ev : ConcreteEvent), Sat s k ev →
      Sat (import_records s recs now).1 k ev := by
  induction recs with
  | nil => intro s k ev h; exact h
  | cons rec recs ih =>
    intro s k ev h
    rw [import_records_cons]
    exact ih _ k ev (sat_mono_process s rec now k ev h)

/-- Every key any record of the file plans to insert is present once the
whole file has been imported. -/
def AllSat (s : Store) (recs : List RawRecord) (now : PyDateTime) : Prop :=
  ∀ rec ∈ recs, ∀ ev ks, record_plan rec now = some (ev, ks) → ∀ k ∈ ks, Sat s k ev

theorem allSat_after_import (recs : List RawRecord) (now : PyDateTime) :
    ∀ s : Store, AllSat (import_records s recs now).1 recs now := by
  induction recs with
  | nil => intro s rec h; cases h
  | cons rec0 recs ih =>
    intro s rec hrec ev ks hp k hk
    rw [import_records_cons]
    rcases List.mem_cons.mp hrec with rfl | hm
    · exact sat_mono_records recs now _ k ev (sat_process_all s rec now ev ks hp k hk)
    · exact ih (process_record s rec0 now).1 rec hm ev ks hp k hk

theorem import_records_of_allsat (recs : List RawRecord) (now : PyDateTime) :
    ∀ s : Store, AllSat s recs now → import_records s recs now = (s, 0) := by
  induction recs with
  | nil => intro s _; rfl
  | cons rec recs ih =>
    intro s h
    rw [import_records_cons,
      process_record_of_sat s rec now (h rec (List.mem_cons_self rec recs))]
    rw [ih s (fun r hr => h r (List.mem_cons_of_mem rec hr))]
    rfl

/-! ## No duplicate `(title, start_time)` pairs per date -/

/-- No two events under any single date share both title and start time
(the import's dedup identity). -/
def NodupTriples (s : Store) : Prop :=
  ∀ k, List.Pairwise
    (fun a b => ¬(a.title = b.title ∧ a.start_time = b.start_time))
    (getList s k)

theorem getList_appendAt_ne (s : Store) (k0 k : String) (e : ConcreteEvent)
    (hk : k ≠ k0) : getList (appendAt s k0 e) k = getList s k := by
  unfold getList
  rw [sLookup_appendAt, if_neg hk]

theorem nt_insert (s : Store) (k0 : String) (ev : ConcreteEvent)
    (h : NodupTriples s) : NodupTriples (insert_import_event s k0 ev).1 := by
  rw [insert_import_event_eq]
  by_cases hd : ((getList s k0).any
      (fun e => e.title == ev.title && e.start_time == ev.start_time)) = true
  · rw [if_pos hd]
    intro k
    by_cases hk : k = k0
    · subst hk; rw [getList_ensureKey_self]; exact h k
    · rw [getList_ensureKey_ne s k0 k hk]; exact h k
  · rw [if_neg hd]
    intro k
    by_cases hk : k = k0
    · subst hk
      rw [getList_appendAt_ensure, List.pairwise_append]
      refine ⟨h k, List.pairwise_singleton _ _, ?_⟩
      intro a ha b hb
      rw [List.mem_singleton] at hb
      subst hb
      intro hcontra
      exact hd ((dup_eq_true_iff_sat s k ev).mpr
        ⟨a, ha, by simpa [mkClassEvent] using hcontra⟩)
    · rw [getList_appendAt_ne _ _ _ _ hk, getList_ensureKey_ne s k0 k hk]
      exact h k

theorem nt_foldl (ev : ConcreteEvent) (ks : List String) :
    ∀ p : Store × Nat, NodupTriples p.1 →
      NodupTriples ((ks.foldl (fun p k =>
        let r := insert_import_event p.1 k ev
        (r.1, p.2 + (if r.2 then 1 else 0))) p).1) := by
  induction ks with
  | nil => intro p h; exact h
  | cons k0 ks ih =>
    intro p h
    rw [List.foldl_cons]
    exact ih _ (nt_insert p.1 k0 ev h)

theorem nt_process (s : Store) (rec : RawRecord) (now : PyDateTime)
    (h : NodupTriples s) : NodupTriples (process_record s rec now).1 := by
  unfold process_record
  cases hp : record_plan rec now with
  | none => exact h
  | some pl => exact nt_foldl pl.1 pl.2 (s, 0) h

theorem nt_records (recs : List RawRecord) (now : PyDateTime) :
    ∀ s : Store, NodupTriples s → NodupTriples (import_records s recs now).1 := by
  induction recs with
  | nil => intro s h; exact h
  | cons rec recs ih =>
    intro s h
    rw [import_records_cons]
    exact ih _ (nt_process s rec now h)

/-- C1: importing the same file twice leaves the event store exactly as
one import leaves it (the second pass inserts nothing), and an import
never creates a second event with the same `(title, start_time)` under
one date: the per-date no-duplicate invariant is preserved. -/
theorem import_ics_events_idempotent (s : Store) (content : String) (now : PyDateTime) :
    import_ics_events (import_ics_events s content now).1 content now
        = ((import_ics_events s content now).1, 0)
    ∧ (NodupTriples s → NodupTriples (import_ics_events s content now).1) := by
  constructor
  · unfold import_ics_events
    exact import_records_of_allsat (parse_ics_file content) now _
      (allSat_after_import (parse_ics_file content) now s)
  · intro h
    exact nt_records (parse_ics_file content) now s h

/-- Witness for C1 at a concrete weekly-recurring file and the empty
starting store. -/
theorem import_ics_events_idempotent_witness :
    import_ics_events
        (import_ics_events [] "BEGIN:VEVENT\nSUMMARY:Algo\nDTSTART:20250101T100000\nDTEND:20250101T110000\nRRULE:FREQ=WEEKLY;BYDAY=MO,WE;UNTIL=20250115\nEND:VEVENT" ⟨2026, 10, 12, 9, 0, 0⟩).1
        "BEGIN:VEVENT\nSUMMARY:Algo\nDTSTART:20250101T100000\nDTEND:20250101T110000\nRRULE:FREQ=WEEKLY;BYDAY=MO,WE;UNTIL=20250115\nEND:VEVENT" ⟨2026, 10, 12, 9, 0, 0⟩
      = ((import_ics_events [] "BEGIN:VEVENT\nSUMMARY:Algo\nDTSTART:20250101T100000\nDTEND:20250101T110000\nRRULE:FREQ=WEEKLY;BYDAY=MO,WE;UNTIL=20250115\nEND:VEVENT" ⟨2026, 10, 12, 9, 0, 0⟩).1, 0)
    ∧ NodupTriples
        (import_ics_events [] "BEGIN:VEVENT\nSUMMARY:Algo\nDTSTART:20250101T100000\nDTEND:20250101T110000\nRRULE:FREQ=WEEKLY;BYDAY=MO,WE;UNTIL=20250115\nEND:VEVENT" ⟨2026, 10, 12, 9, 0, 0⟩).1 :=
  ⟨(import_ics_events_idempotent [] _ _).1,
   (import_ics_events_idempotent [] _ _).2 (fun k => by simp [getList, sLookup])⟩

/-! ## Frame property: the import only appends -/

/-- `s'` extends `s`: every date key of `s` is still present and its event
list is an unchanged prefix of the corresponding list of `s'`. -/
def StoreExt (s s' : Store) : Prop :=
  ∀ k l, sLookup k s = some l → ∃ t, sLookup k s' = some (l ++ t)

theorem storeExt_trans {a b c : Store} (h1 : StoreExt a b) (h2 : StoreExt b c) :
    StoreExt a c := by
  intro k l hl
  obtain ⟨t, ht⟩ := h1 k l hl
  obtain ⟨u, hu⟩ := h2 k (l ++ t) ht
  exact ⟨t ++ u, by rw [hu, List.append_assoc]⟩

theorem storeExt_ensureKey (s : Store) (k0 : String) :
    StoreExt s (ensureKey s k0) := by
  intro k l h
  unfold ensureKey
  cases hv : sLookup k0 s
  · simp only [hv, Option.isSome_none, Bool.false_eq_true, if_neg, not_false_iff]
    rw [sLookup_append, h]
    exact ⟨[], by simp [Option.orElse]⟩
  · simp only [hv, Option.isSome_some, if_pos]
    exact ⟨[], by simp [h]⟩

theorem storeExt_appendAt (s : Store) (k0 : String) (e : ConcreteEvent) :
    StoreExt s (appendAt s k0 e) := by
  intro k l h
  rw [sLookup_appendAt]
  by_cases hk : k = k0
  · exact ⟨[e], by rw [if_pos hk, h]; rfl⟩
  · exact ⟨[], by rw [if_neg hk, h, List.append_nil]⟩

theorem storeExt_insert (s : Store) (k0 : String) (ev : ConcreteEvent) :
    StoreExt s (insert_import_event s k0 ev).1 := by
  rw [insert_import_event_eq]
  by_cases hd : ((getList s k0).any
      (fun e => e.title == ev.title && e.start_time == ev.start_time)) = true
  · rw [if_pos hd]
    exact storeExt_ensureKey s k0
  · rw [if_neg hd]
    exact storeExt_trans (storeExt_ensureKey s k0)
      (storeExt_appendAt (ensureKey s k0) k0 (mkClassEvent ev))

theorem storeExt_foldl (ev : ConcreteEvent) (ks : List String) :
    ∀ p : Store × Nat,
      StoreExt p.1 ((ks.foldl (fun p k =>
        let r := insert_import_event p.1 k ev
        (r.1, p.2 + (if r.2 then 1 else 0))) p).1) := by
  induction ks with
  | nil => intro p k l h; exact ⟨[], by simp [h]⟩
  | cons k0 ks ih =>
    intro p
    rw [List.foldl_cons]
    exact storeExt_trans (storeExt_insert p.1 k0 ev)
      (ih ((insert_import_event p.1 k0 ev).1,
        p.2 + (if (insert_import_event p.1 k0 ev).2 then 1 else 0)))

theorem storeExt_process (s : Store) (rec : RawRecord) (now : PyDateTime) :
    StoreExt s (process_record s rec now).1 := by
  unfold process_record
  cases hp : record_plan rec now with
  | none => intro k l h; exact ⟨[], by simp [h]⟩
  | some pl => exact storeExt_foldl pl.1 pl.2 (s, 0)

theorem storeExt_records (recs : List RawRecord) (now : PyDateTime) :
    ∀ s : Store, StoreExt s (import_records s recs now).1 := by
  induction recs with
  | nil => intro s k l h; exact ⟨[], by simp [import_records, h]⟩
  | cons rec recs ih =>
    intro s
    rw [import_records_cons]
    exact storeExt_trans (storeExt_process s rec now) (ih _)

/-- C10: the import is append-only — every event list present in the store
before an import survives it as an unchanged prefix (same events, same
relative order) of that date's list; no event is removed or modified. -/
theorem import_ics_events_append_only (s : Store) (content : String)
    (now : PyDateTime) (k : String) (l : List ConcreteEvent)
    (h : sLookup k s = some l) :
    ∃ t, sLookup k (import_ics_events s content now).1 = some (l ++ t) :=
  storeExt_records (parse_ics_file content) now s k l h

/-- Witness for C10: a pre-existing event under 2025-01-01 is still the
first entry of that date after importing a file that adds to the date. -/
theorem import_ics_events_append_only_witness :
    sLookup "2025-01-01"
        [("2025-01-01",
          [(⟨"Old", "", "", "08:00", "09:00", false, "manual", "user"⟩ : ConcreteEvent)])]
      = some [(⟨"Old", "", "", "08:00", "09:00", false, "manual", "user"⟩ : ConcreteEvent)]
    ∧ ∃ t, sLookup "2025-01-01"
        (import_ics_events
          [("2025-01-01",
            [(⟨"Old", "", "", "08:00", "09:00", false, "manual", "user"⟩ : ConcreteEvent)])]
          "BEGIN:VEVENT\nSUMMARY:New\nDTSTART:20250101T100000\nDTEND:20250101T110000\nEND:VEVENT"
          ⟨2026, 10, 12, 9, 0, 0⟩).1
      = some ([(⟨"Old", "", "", "08:00", "09:00", false, "manual", "user"⟩ : ConcreteEvent)] ++ t) :=
  ⟨rfl, import_ics_events_append_only _ _ _ _ _ rfl⟩

/-- C4: the dedup test is scoped to one calendar date and compares only
title and start time: an incoming event is rejected (not inserted, store
untouched) exactly when some existing event under the same date key has
equal `title` and equal `start_time`; and the same event inserted under
two different date keys is kept under both. -/
theorem import_dedup_per_date :
    (∀ (s : Store) (k : String) (ev : ConcreteEvent),
      ((insert_import_event s k ev).2 = false ↔
        ∃ e ∈ getList s k, e.title = ev.title ∧ e.start_time = ev.start_time)
      ∧ ((insert_import_event s k ev).2 = false →
        (insert_import_event s k ev).1 = s))
    ∧ (∀ (k k' : String) (ev : ConcreteEvent), k ≠ k' →
        getList (insert_import_event (insert_import_event [] k ev).1 k' ev).1 k
          = [mkClassEvent ev]
        ∧ getList (insert_import_event (insert_import_event [] k ev).1 k' ev).1 k'
          = [mkClassEvent ev]) := by
  constructor
  · intro s k ev
    constructor
    · rw [insert_import_event_eq]
      by_cases hd : ((getList s k).any
          (fun e => e.title == ev.title && e.start_time == ev.start_time)) = true
      · rw [if_pos hd]
        simpa using (dup_eq_true_iff_sat s k ev).mp hd
      · rw [if_neg hd]
        constructor
        · intro h; cases h
        · intro hsat
          exact absurd ((dup_eq_true_iff_sat s k ev).mpr hsat) hd
    · intro h2
      by_cases hd : ((getList s k).any
          (fun e => e.title == ev.title && e.start_time == ev.start_time)) = true
      · rw [insert_of_sat s k ev ((dup_eq_true_iff_sat s k ev).mp hd)]
      · rw [insert_import_event_eq, if_neg hd] at h2
        cases h2
  · intro k k' ev hkk
    have e1 : insert_import_event [] k ev
        = (appendAt (ensureKey [] k) k (mkClassEvent ev), true) := by
      rw [insert_import_event_eq, if_neg (by simp [getList, sLookup])]
    have g1k : getList (insert_import_event [] k ev).1 k = [mkClassEvent ev] := by
      rw [e1]
      simpa [getList, sLookup] using getList_appendAt_ensure [] k (mkClassEvent ev)
    have g1k' : getList (insert_import_event [] k ev).1 k' = [] := by
      rw [e1]
      show getList (appendAt (ensureKey [] k) k (mkClassEvent ev)) k' = []
      rw [getList_appendAt_ne _ _ _ _ (Ne.symm hkk),
        getList_ensureKey_ne _ _ _ (Ne.symm hkk)]
      rfl
    have e2 : insert_import_event (insert_import_event [] k ev).1 k' ev
        = (appendAt (ensureKey (insert_import_event [] k ev).1 k') k'
            (mkClassEvent ev), true) := by
      rw [insert_import_event_eq, g1k', if_neg (by simp)]
    refine ⟨?_, ?_⟩
    · rw [e2]
      show getList (appendAt (ensureKey (insert_import_event [] k ev).1 k') k'
        (mkClassEvent ev)) k = _
      rw [getList_appendAt_ne _ _ _ _ hkk, getList_ensureKey_ne _ _ _ hkk]
      exact g1k
    · rw [e2]
      show getList (appendAt (ensureKey (insert_import_event [] k ev).1 k') k'
        (mkClassEvent ev)) k' = _
      rw [getList_appendAt_ensure, g1k']
      rfl

/-- Witness for C4 at concrete dates and a concrete event: identical
title and start time on two different dates are both kept, and the dedup
verdict is exactly the title/start-time test. -/
theorem import_dedup_per_date_witness :
    ((insert_import_event
        [("2025-01-01",
          [(⟨"CS 101", "", "", "09:00", "10:00", false, "class", "ics"⟩ : ConcreteEvent)])]
        "2025-01-01"
        ⟨"CS 101", "other desc", "room 2", "09:00", "11:00", false, "imported", "ics"⟩).2 = false ↔
      ∃ e ∈ getList
        [("2025-01-01",
          [(⟨"CS 101", "", "", "09:00", "10:00", false, "class", "ics"⟩ : ConcreteEvent)])]
        "2025-01-01",
        e.title = "CS 101" ∧ e.start_time = "09:00")
    ∧ getList (insert_import_event
        (insert_import_event []
          "2025-01-01" ⟨"CS 101", "", "", "09:00", "10:00", false, "imported", "ics"⟩).1
        "2025-01-02" ⟨"CS 101", "", "", "09:00", "10:00", false, "imported", "ics"⟩).1
        "2025-01-01"
      = [mkClassEvent ⟨"CS 101", "", "", "09:00", "10:00", false, "imported", "ics"⟩]
    ∧ getList (insert_import_event
        (insert_import_event []
          "2025-01-01" ⟨"CS 101", "", "", "09:00", "10:00", false, "imported", "ics"⟩).1
        "2025-01-02" ⟨"CS 101", "", "", "09:00", "10:00", false, "imported", "ics"⟩).1
        "2025-01-02"
      = [mkClassEvent ⟨"CS 101", "", "", "09:00", "10:00", false, "imported", "ics"⟩] :=
  ⟨(import_dedup_per_date.1 _ "2025-01-01" _).1,
   (import_dedup_per_date.2 "2025-01-01" "2025-01-02" _ (by decide)).1,
   (import_dedup_per_date.2 "2025-01-01" "2025-01-02" _ (by decide)).2⟩

set_option maxRecDepth 16384 in
/-- C6: a record whose `DTSTART` yields no usable start time is silently
dropped — processing it leaves the store untouched and contributes no
count — the remaining records are processed as if it were absent, and the
two-record file with one well-formed VEVENT and one VEVENT missing
`DTSTART` imports exactly one event. -/
theorem record_without_dtstart_skipped :
    (∀ (s : Store) (rec : RawRecord) (now : PyDateTime),
      parse_ics_datetime (lookupD rec "DTSTART" "") none now = none →
      process_record s rec now = (s, 0))
    ∧ (∀ (s : Store) (now : PyDateTime) (pre post : List RawRecord) (rec : RawRecord),
      parse_ics_datetime (lookupD rec "DTSTART" "") none now = none →
      import_records s (pre ++ rec :: post) now = import_records s (pre ++ post) now)
    ∧ (∀ now : PyDateTime,
      (import_ics_events []
        "BEGIN:VEVENT\nSUMMARY:Good\nDTSTART:20250102T090000\nDTEND:20250102T100000\nEND:VEVENT\nBEGIN:VEVENT\nSUMMARY:Bad\nDTEND:20250102T100000\nEND:VEVENT"
        now).2 = 1) := by
  have hskip : ∀ (s : Store) (rec : RawRecord) (now : PyDateTime),
      parse_ics_datetime (lookupD rec "DTSTART" "") none now = none →
      process_record s rec now = (s, 0) := by
    intro s rec now h
    have hplan : record_plan rec now = none := by
      simp only [record_plan, h]
    simp only [process_record, hplan]
  refine ⟨hskip, ?_, ?_⟩
  · intro s now pre post rec h
    induction pre generalizing s with
    | nil =>
      rw [List.nil_append, List.nil_append, import_records_cons, hskip s rec now h]
      simp [import_records]
    | cons r pre ih =>
      rw [List.cons_append, List.cons_append, import_records_cons, import_records_cons]
      rw [ih (process_record s r now).1]
  · intro now
    rfl

set_option maxRecDepth 16384 in
/-- Witness for C6: a concrete record with no `DTSTART` field leaves a
concrete store unchanged, and the two-record file imports exactly one. -/
theorem record_without_dtstart_skipped_witness :
    process_record [("2025-01-01", [])] [("SUMMARY", "Bad")] ⟨2026, 10, 12, 9, 0, 0⟩
      = ([("2025-01-01", [])], 0)
    ∧ (import_ics_events []
        "BEGIN:VEVENT\nSUMMARY:Good\nDTSTART:20250102T090000\nDTEND:20250102T100000\nEND:VEVENT\nBEGIN:VEVENT\nSUMMARY:Bad\nDTEND:20250102T100000\nEND:VEVENT"
        ⟨2026, 10, 12, 9, 0, 0⟩).2 = 1 :=
  ⟨record_without_dtstart_skipped.1 _ _ _ rfl,
   record_without_dtstart_skipped.2.2 ⟨2026, 10, 12, 9, 0, 0⟩⟩

/-! ## Characterizing the weekly expansion (C3) -/

theorem foldl_insert_from (ev : ConcreteEvent) (ks : List String) :
    ∀ (s : Store) (c : Nat) (A : List String),
      (∀ k l, sLookup k s = some l ↔ (k ∈ A ∧ l = [mkClassEvent ev])) →
      ∀ k l,
        sLookup k ((ks.foldl (fun p k =>
          let r := insert_import_event p.1 k ev
          (r.1, p.2 + (if r.2 then 1 else 0))) (s, c)).1) = some l
        ↔ ((k ∈ A ∨ k ∈ ks) ∧ l = [mkClassEvent ev]) := by
  induction ks with
  | nil =>
    intro s c A hA k l
    rw [List.foldl_nil]
    rw [hA k l]
    simp
  | cons k0 ks ih =>
    intro s c A hA k l
    rw [List.foldl_cons]
    by_cases hmem : k0 ∈ A
    · have hk0 : sLookup k0 s = some [mkClassEvent ev] := (hA k0 _).mpr ⟨hmem, rfl⟩
      have hg : getList s k0 = [mkClassEvent ev] := by unfold getList; rw [hk0]; rfl
      have hdup : ((getList s k0).any
          (fun e => e.title == ev.title && e.start_time == ev.start_time)) = true := by
        rw [hg]
        simp [mkClassEvent]
      have hins : insert_import_event s k0 ev = (s, false) := by
        rw [insert_import_event_eq, if_pos hdup,
          ensureKey_of_isSome s k0 (by rw [hk0]; rfl)]
      show sLookup k (((ks.foldl _ ((insert_import_event s k0 ev).1, _)).1)) = some l ↔ _
      rw [hins]
      rw [ih s _ A hA k l]
      constructor
      · rintro ⟨hm, hl⟩
        exact ⟨hm.imp id (List.mem_cons_of_mem k0), hl⟩
      · rintro ⟨hm, hl⟩
        refine ⟨?_, hl⟩
        rcases hm with hm | hm
        · exact Or.inl hm
        · rcases List.mem_cons.mp hm with rfl | hm
          · exact Or.inl hmem
          · exact Or.inr hm
    · have hk0 : sLookup k0 s = none := by
        cases hv : sLookup k0 s with
        | none => rfl
        | some l0 => exact absurd ((hA k0 l0).mp hv).1 hmem
      have hg : getList s k0 = [] := by unfold getList; rw [hk0]; rfl
      have hdup : ((getList s k0).any
          (fun e => e.title == ev.title && e.start_time == ev.start_time)) = false := by
        rw [hg]; rfl
      have hins : insert_import_event s k0 ev
          = (appendAt (ensureKey s k0) k0 (mkClassEvent ev), true) := by
        rw [insert_import_event_eq, hdup]
        rfl
      have hA' : ∀ k l, sLookup k (appendAt (ensureKey s k0) k0 (mkClassEvent ev)) = some l
          ↔ (k ∈ (k0 :: A) ∧ l = [mkClassEvent ev]) := by
        intro k l
        rw [sLookup_appendAt]
        by_cases hk : k = k0
        · subst hk
          rw [if_pos rfl, sLookup_ensureKey_self]
          unfold getList
          rw [hk0]
          simp [eq_comm]
        · rw [if_neg hk, sLookup_ensureKey_ne s k0 k hk, hA k l]
          simp [List.mem_cons, hk]
      show sLookup k (((ks.foldl _ ((insert_import_event s k0 ev).1, _)).1)) = some l ↔ _
      rw [hins]
      rw [ih _ _ (k0 :: A) hA' k l]
      constructor
      · rintro ⟨hm, hl⟩
        refine ⟨?_, hl⟩
        rcases hm with hm | hm
        · rcases List.mem_cons.mp hm with rfl | hm
          · exact Or.inr (List.mem_cons_self _ _)
          · exact Or.inl hm
        · exact Or.inr (List.mem_cons_of_mem k0 hm)
      · rintro ⟨hm, hl⟩
        refine ⟨?_, hl⟩
        rcases hm with hm | hm
        · exact Or.inl (List.mem_cons_of_mem k0 hm)
        · rcases List.mem_cons.mp hm with rfl | hm
          · exact Or.inl (List.mem_cons_self _ _)
          · exact Or.inr hm

theorem foldl_insert_from_nil (ev : ConcreteEvent) (ks : List String)
    (k : String) (l : List ConcreteEvent) :
    sLookup k ((ks.foldl (fun p k =>
        let r := insert_import_event p.1 k ev
        (r.1, p.2 + (if r.2 then 1 else 0))) (([] : Store), 0)).1) = some l
      ↔ (k ∈ ks ∧ l = [mkClassEvent ev]) := by
  rw [foldl_insert_from ev ks [] 0 [] (by intro k l; simp [sLookup]) k l]
  simp

theorem record_plan_weekly (rec : RawRecord) (now start endDT : PyDateTime)
    (bs : List Char) (uOrd : Nat)
    (hs : parse_ics_datetime (lookupD rec "DTSTART" "") none now = some start)
    (he : parse_ics_datetime (lookupD rec "DTEND" "") (some start) now = some endDT)
    (hw : hasSubstr (lookupD rec "RRULE" "") "FREQ=WEEKLY" = true)
    (hb : searchByday (lookupD rec "RRULE" "").data = some bs)
    (hu : untilOrdOf (lookupD rec "RRULE" "") = some uOrd) :
    record_plan rec now = some
      (⟨lookupD rec "SUMMARY" "Untitled Event",
        pyReplace (lookupD rec "DESCRIPTION" "") "\\n" "\n",
        lookupD rec "LOCATION" "", fmtHM start, fmtHM endDT,
        false, "imported", "ics"⟩,
       ((List.range' (dateOrd start.year start.month start.day)
          (uOrd + 1 - dateOrd start.year start.month start.day)).filter
            (bydayMatches (pySplit (String.mk bs) ","))).map isoOfOrd) := by
  simp only [record_plan, hs, he, hw, hb, hu, if_true]

/-- C3: for a weekly rule with a `BYDAY` list, starting from the empty
store, the import places under a date key exactly one copy of the seed
event (title, description, location, start and end clock times all
unchanged, category rewritten to `'class'`) if and only if that key is
the ISO date of an ordinal between the start date and the `UNTIL` bound
whose weekday is in the `BYDAY` set — and no other key holds anything;
when a `FREQ=WEEKLY` rule has no `BYDAY`, the record inserts nothing. -/
theorem weekly_expansion_exact :
    (∀ (rec : RawRecord) (now start endDT : PyDateTime) (bs : List Char)
        (uOrd : Nat) (ev : ConcreteEvent),
      parse_ics_datetime (lookupD rec "DTSTART" "") none now = some start →
      parse_ics_datetime (lookupD rec "DTEND" "") (some start) now = some endDT →
      hasSubstr (lookupD rec "RRULE" "") "FREQ=WEEKLY" = true →
      searchByday (lookupD rec "RRULE" "").data = some bs →
      untilOrdOf (lookupD rec "RRULE" "") = some uOrd →
      ev = ⟨lookupD rec "SUMMARY" "Untitled Event",
            pyReplace (lookupD rec "DESCRIPTION" "") "\\n" "\n",
            lookupD rec "LOCATION" "", fmtHM start, fmtHM endDT,
            false, "imported", "ics"⟩ →
      ∀ k l, sLookup k (process_record [] rec now).1 = some l ↔
        ((∃ n, dateOrd start.year start.month start.day ≤ n ∧ n ≤ uOrd ∧
          bydayMatches (pySplit (String.mk bs) ",") n = true ∧ k = isoOfOrd n)
         ∧ l = [mkClassEvent ev]))
    ∧ (∀ (s : Store) (rec : RawRecord) (now start endDT : PyDateTime),
      parse_ics_datetime (lookupD rec "DTSTART" "") none now = some start →
      parse_ics_datetime (lookupD rec "DTEND" "") (some start) now = some endDT →
      hasSubstr (lookupD rec "RRULE" "") "FREQ=WEEKLY" = true →
      searchByday (lookupD rec "RRULE" "").data = none →
      process_record s rec now = (s, 0)) := by
  constructor
  · intro rec now start endDT bs uOrd ev hs he hw hb hu hev k l
    subst hev
    unfold process_record
    rw [record_plan_weekly rec now start endDT bs uOrd hs he hw hb hu]
    rw [foldl_insert_from_nil]
    have hkeys : k ∈ ((List.range' (dateOrd start.year start.month start.day)
          (uOrd + 1 - dateOrd start.year start.month start.day)).filter
            (bydayMatches (pySplit (String.mk bs) ","))).map isoOfOrd
        ↔ ∃ n, dateOrd start.year start.month start.day ≤ n ∧ n ≤ uOrd ∧
            bydayMatches (pySplit (String.mk bs) ",") n = true ∧ k = isoOfOrd n := by
      simp only [List.mem_map, List.mem_filter, List.mem_range'_1]
      constructor
      · rintro ⟨n, ⟨⟨h1, h2⟩, hp⟩, rfl⟩
        exact ⟨n, h1, by omega, hp, rfl⟩
      · rintro ⟨n, h1, h2, hp, rfl⟩
        exact ⟨n, ⟨⟨h1, by omega⟩, hp⟩, rfl⟩
    rw [hkeys]
  · intro s rec now start endDT hs he hw hb
    have hplan : record_plan rec now = some
        (⟨lookupD rec "SUMMARY" "Untitled Event",
          pyReplace (lookupD rec "DESCRIPTION" "") "\\n" "\n",
          lookupD rec "LOCATION" "", fmtHM start, fmtHM endDT,
          false, "imported", "ics"⟩, []) := by
      simp only [record_plan, hs, he, hw, hb, if_true]
    unfold process_record
    rw [hplan]
    rfl

set_option maxRecDepth 16384 in
/-- Witness for C3 at the spec's example (`BYDAY=MO,WE;UNTIL=20250115`,
seed 2025-01-01): Monday 2025-01-06 holds exactly one copy of the seed,
and a weekly rule without `BYDAY` inserts nothing. -/
theorem weekly_expansion_exact_witness :
    sLookup (isoOfOrd (dateOrd 2025 1 6))
        (process_record []
          [("SUMMARY", "Algo"), ("DTSTART", "20250101T100000"),
           ("DTEND", "20250101T110000"),
           ("RRULE", "FREQ=WEEKLY;BYDAY=MO,WE;UNTIL=20250115")]
          ⟨2026, 10, 12, 9, 0, 0⟩).1
      = some [mkClassEvent ⟨"Algo", "", "", "10:00", "11:00", false, "imported", "ics"⟩]
    ∧ process_record [("2025-03-04", [])]
        [("SUMMARY", "NoDays"), ("DTSTART", "20250101T100000"),
         ("DTEND", "20250101T110000"), ("RRULE", "FREQ=WEEKLY;UNTIL=20250115")]
        ⟨2026, 10, 12, 9, 0, 0⟩
      = ([("2025-03-04", [])], 0) :=
  ⟨(weekly_expansion_exact.1
      [("SUMMARY", "Algo"), ("DTSTART", "20250101T100000"),
       ("DTEND", "20250101T110000"),
       ("RRULE", "FREQ=WEEKLY;BYDAY=MO,WE;UNTIL=20250115")]
      ⟨2026, 10, 12, 9, 0, 0⟩ ⟨2025, 1, 1, 10, 0, 0⟩ ⟨2025, 1, 1, 11, 0, 0⟩
      "MO,WE".data (dateOrd 2025 1 15)
      ⟨"Algo", "", "", "10:00", "11:00", false, "imported", "ics"⟩
      rfl rfl rfl rfl rfl rfl (isoOfOrd (dateOrd 2025 1 6)) _).mpr
    ⟨⟨dateOrd 2025 1 6, by decide, by decide, by decide, rfl⟩, rfl⟩,
   weekly_expansion_exact.2 [("2025-03-04", [])]
      [("SUMMARY", "NoDays"), ("DTSTART", "20250101T100000"),
       ("DTEND", "20250101T110000"), ("RRULE", "FREQ=WEEKLY;UNTIL=20250115")]
      ⟨2026, 10, 12, 9, 0, 0⟩ ⟨2025, 1, 1, 10, 0, 0⟩ ⟨2025, 1, 1, 11, 0, 0⟩
      rfl rfl rfl rfl⟩

set_option maxRecDepth 65536 in
/-- C7: the classifier resolves the spec's example titles through the
pattern cascade — both subject-first titles map to `"CODE - Subject"`
via Pattern 1, and a title with no course code classifies to `none`. -/
theorem parse_class_name_examples :
    parse_class_name "Intro to Algs & Models of Comp ECE 374 BYA"
        = some "ECE 374 - Intro to Algs & Models of Comp"
    ∧ parse_class_name "Applied Parallel Programming ECE 408 AL1"
        = some "ECE 408 - Applied Parallel Programming"
    ∧ parse_class_name "Team Meeting" = none :=
  ⟨rfl, rfl, rfl⟩

/-! ## Class-template facts (C8) -/

theorem class_task_templates_spec (k : String) :
    (class_task_templates k).length = 4
    ∧ ∀ t ∈ class_task_templates k, k.data <:+: t.description.data := by
  refine ⟨rfl, ?_⟩
  intro t ht
  simp only [class_task_templates, List.mem_cons, List.not_mem_nil, or_false] at ht
  rcases ht with rfl | rfl | rfl | rfl
  · exact ⟨"Review notes and materials from ".data, [],
      by simp [String.data_append]⟩
  · exact ⟨"Work on any assignments for ".data, [],
      by simp [String.data_append]⟩
  · exact ⟨"Read ahead and prepare for next ".data, " session".data,
      by simp [String.data_append]⟩
  · exact ⟨"Practice problems or study concepts from ".data, [],
      by simp [String.data_append]⟩

theorem extract_step_preserves (acc : ClassTemplates) (e : ConcreteEvent)
    (h : ∀ kv ∈ acc, kv.2 = class_task_templates kv.1) :
    ∀ kv ∈ (if e.imported_from = "ics" then
        match parse_class_name e.title with
        | some cn =>
          if cn ≠ "" ∧ (sLookup cn acc).isNone then
            acc ++ [(cn, class_task_templates cn)]
          else acc
        | none => acc
      else acc), kv.2 = class_task_templates kv.1 := by
  intro kv hm
  by_cases hi : e.imported_from = "ics"
  · rw [if_pos hi] at hm
    cases hc : parse_class_name e.title with
    | none => simp only [hc] at hm; exact h kv hm
    | some cn =>
      simp only [hc] at hm
      by_cases hcn : cn ≠ "" ∧ (sLookup cn acc).isNone
      · rw [if_pos hcn] at hm
        rcases List.mem_append.mp hm with hm | hm
        · exact h kv hm
        · rw [List.mem_singleton] at hm
          subst hm
          rfl
      · rw [if_neg hcn] at hm
        exact h kv hm
  · rw [if_neg hi] at hm
    exact h kv hm

theorem extract_inner_preserves (evs : List ConcreteEvent) :
    ∀ acc : ClassTemplates,
      (∀ kv ∈ acc, kv.2 = class_task_templates kv.1) →
      ∀ kv ∈ evs.foldl (fun acc e =>
          if e.imported_from = "ics" then
            match parse_class_name e.title with
            | some cn =>
              if cn ≠ "" ∧ (sLookup cn acc).isNone then
                acc ++ [(cn, class_task_templates cn)]
              else acc
            | none => acc
          else acc) acc,
        kv.2 = class_task_templates kv.1 := by
  induction evs with
  | nil => intro acc h kv hm; exact h kv hm
  | cons e evs ih =>
    intro acc h kv hm
    rw [List.foldl_cons] at hm
    exact ih _ (extract_step_preserves acc e h) kv hm

theorem extract_classes_preserves (events : Store) :
    ∀ kv ∈ extract_classes events, kv.2 = class_task_templates kv.1 := by
  unfold extract_classes
  generalize hgen : (fun (acc : ClassTemplates) (e : ConcreteEvent) =>
    if e.imported_from = "ics" then
      match parse_class_name e.title with
      | some cn =>
        if cn ≠ "" ∧ (sLookup cn acc).isNone then
          acc ++ [(cn, class_task_templates cn)]
        else acc
      | none => acc
    else acc) = f
  suffices hsuf : ∀ acc : ClassTemplates,
      (∀ kv ∈ acc, kv.2 = class_task_templates kv.1) →
      ∀ kv ∈ events.foldl (fun acc p => p.2.foldl f acc) acc,
        kv.2 = class_task_templates kv.1 by
    exact hsuf [] (by intro kv hm; cases hm)
  induction events with
  | nil => intro acc h kv hm; exact h kv hm
  | cons p r ih =>
    intro acc h kv hm
    rw [List.foldl_cons] at hm
    refine ih _ ?_ kv hm
    subst hgen
    exact extract_inner_preserves p.2 acc h

theorem sLookup_dictUpdate_map (base upd : ClassTemplates) (k : String) :
    sLookup k (base.map (fun p =>
      match sLookup p.1 upd with
      | some v => (p.1, v)
      | none => p)) =
    (sLookup k base).map (fun v =>
      match sLookup k upd with
      | some w => w
      | none => v) := by
  induction base with
  | nil => rfl
  | cons p r ih =>
    simp only [List.map_cons]
    by_cases hk : p.1 = k
    · subst hk
      cases hu : sLookup p.1 upd <;> simp [sLookup, hu]
    · cases hu : sLookup p.1 upd <;> simp [sLookup, hk, ih, hu]

theorem sLookup_filter_key {α : Type} (f : String → Bool)
    (l : List (String × α)) (k : String) :
    sLookup k (l.filter (fun q => f q.1)) = if f k then sLookup k l else none := by
  induction l with
  | nil => simp [sLookup]
  | cons p r ih =>
    simp only [List.filter_cons]
    by_cases hk : p.1 = k
    · subst hk
      by_cases hp : f p.1 <;> simp [sLookup, hp, ih]
    · by_cases hp : f p.1 <;> simp [sLookup, hk, hp, ih]

theorem sLookup_dictUpdate_of_mem (base upd : ClassTemplates) (k : String)
    (h : (sLookup k upd).isSome) :
    sLookup k (dictUpdate base upd) = sLookup k upd := by
  unfold dictUpdate
  rw [sLookup_append, sLookup_dictUpdate_map]
  cases hb : sLookup k base
  · simp only [Option.map_none, Option.orElse]
    rw [sLookup_filter_key (fun q => (sLookup q base).isNone) upd k]
    simp [hb]
  · cases hu : sLookup k upd
    · rw [hu] at h; cases h
    · simp [hu, Option.orElse]

theorem sLookup_dictUpdate_of_not_mem (base upd : ClassTemplates) (k : String)
    (h : sLookup k upd = none) :
    sLookup k (dictUpdate base upd) = sLookup k base := by
  unfold dictUpdate
  rw [sLookup_append, sLookup_dictUpdate_map]
  cases hb : sLookup k base
  · simp only [Option.map_none, Option.orElse]
    rw [sLookup_filter_key (fun q => (sLookup q base).isNone) upd k]
    simp [hb, h]
  · simp [h, Option.orElse]

/-- C8: every class identifier derived from ICS-imported events receives
exactly the four fixed task templates, each description containing the
class identifier; on merge, an ICS-derived identifier's templates
overwrite any identically-named pre-existing entry, while other entries
are untouched. -/
theorem ics_class_templates_exact :
    (∀ (events : Store) (k : String) (v : List TaskTemplate),
      (k, v) ∈ extract_classes events →
        v = class_task_templates k ∧ v.length = 4 ∧
        ∀ t ∈ v, k.data <:+: t.description.data)
    ∧ (∀ (ct ex : ClassTemplates) (k : String),
        (sLookup k ex).isSome →
        sLookup k (merge_class_templates ct ex) = sLookup k ex)
    ∧ (∀ (ct ex : ClassTemplates) (k : String),
        sLookup k ex = none →
        sLookup k (merge_class_templates ct ex) = sLookup k ct) := by
  refine ⟨?_, ?_, ?_⟩
  · intro events k v hm
    have hv : v = class_task_templates k := extract_classes_preserves events (k, v) hm
    subst hv
    exact ⟨rfl, (class_task_templates_spec k).1, (class_task_templates_spec k).2⟩
  · intro ct ex k h
    unfold merge_class_templates
    by_cases hex : ex = []
    · subst hex
      cases h
    · rw [if_neg hex]
      exact sLookup_dictUpdate_of_mem ct ex k h
  · intro ct ex k h
    unfold merge_class_templates
    by_cases hex : ex = []
    · rw [if_pos hex]
    · rw [if_neg hex]
      exact sLookup_dictUpdate_of_not_mem ct ex k h

set_option maxRecDepth 65536 in
/-- Witness for C8 at a concrete imported event: the derived class
`"ECE 408 - Applied Parallel Programming"` carries the four templates
(identifier interpolated), and on merge it overwrites the pre-existing
manual entry of the same name. -/
theorem ics_class_templates_exact_witness :
    ((class_task_templates "ECE 408 - Applied Parallel Programming"
        = class_task_templates "ECE 408 - Applied Parallel Programming")
      ∧ (class_task_templates "ECE 408 - Applied Parallel Programming").length = 4
      ∧ ∀ t ∈ class_task_templates "ECE 408 - Applied Parallel Programming",
          ("ECE 408 - Applied Parallel Programming").data <:+: t.description.data)
    ∧ sLookup "ECE 408 - Applied Parallel Programming"
        (merge_class_templates
          [("ECE 408 - Applied Parallel Programming",
            [(⟨"Custom", "manual entry", "low"⟩ : TaskTemplate)])]
          (extract_classes
            [("2025-01-06",
              [(⟨"Applied Parallel Programming ECE 408 AL1", "", "",
                 "09:00", "10:00", false, "class", "ics"⟩ : ConcreteEvent)])]))
      = sLookup "ECE 408 - Applied Parallel Programming"
          (extract_classes
            [("2025-01-06",
              [(⟨"Applied Parallel Programming ECE 408 AL1", "", "",
                 "09:00", "10:00", false, "class", "ics"⟩ : ConcreteEvent)])]) :=
  ⟨ics_class_templates_exact.1
      [("2025-01-06",
        [(⟨"Applied Parallel Programming ECE 408 AL1", "", "",
           "09:00", "10:00", false, "class", "ics"⟩ : ConcreteEvent)])]
      "ECE 408 - Applied Parallel Programming"
      (class_task_templates "ECE 408 - Applied Parallel Programming")
      (List.Mem.head _),
   ics_class_templates_exact.2.1
      [("ECE 408 - Applied Parallel Programming",
        [(⟨"Custom", "manual entry", "low"⟩ : TaskTemplate)])]
      (extract_classes
        [("2025-01-06",
          [(⟨"Applied Parallel Programming ECE 408 AL1", "", "",
             "09:00", "10:00", false, "class", "ics"⟩ : ConcreteEvent)])])
      "ECE 408 - Applied Parallel Programming"
      rfl⟩

/-- C2 (evaluating the code at the failing input): with `DTEND` absent,
`parse_ics_datetime('', start_dt)` falls off its `try` block and returns
`None` — the passed default is bypassed — so building the event dict
raises `AttributeError` on `end_dt.strftime` and the per-record handler
drops the record: a file whose only VEVENT lacks `DTEND` imports nothing,
rather than importing with `end == start`. -/
theorem missing_dtend_drops_record (now : PyDateTime) :
    parse_ics_datetime "" (some ⟨2025, 1, 1, 10, 0, 0⟩) now = none
    ∧ import_ics_events []
        "BEGIN:VEVENT\nSUMMARY:NoEnd\nDTSTART:20250101T100000\nEND:VEVENT" now
      = ([], 0) :=
  ⟨rfl, rfl⟩

/-- C5 (evaluating the code at the failing input): lines are stripped
before the continuation test, so a whitespace-led line containing a colon
is recorded as a field of the current record (here `X-FOLD`), while a
whitespace-led line without a colon is dropped. -/
theorem continuation_with_colon_recorded :
    parse_ics_file "BEGIN:VEVENT\nSUMMARY:Test\n X-FOLD:rest\nEND:VEVENT"
      = [[("SUMMARY", "Test"), ("X-FOLD", "rest")]]
    ∧ parse_ics_file
        "BEGIN:VEVENT\nDESCRIPTION:line one\n continued no colon\nEND:VEVENT"
      = [[("DESCRIPTION", "line one")]] :=
  ⟨rfl, rfl⟩

/-- C9 counterexample: `"TZID=x"` contains `'T'` and is shorter than 15
characters, yet `parse_ics_datetime` returns the caller-supplied default
for it (the colon-less `TZID=` split raises `IndexError`, which the
`except` answers with the fallback) — not "no value at all". -/
theorem tzid_without_colon_uses_fallback :
    strHasChar "TZID=x" 'T' = true
    ∧ "TZID=x".length < 15
    ∧ parse_ics_datetime "TZID=x" (some ⟨2025, 1, 1, 10, 0, 0⟩)
        ⟨2026, 1, 1, 0, 0, 0⟩ = some ⟨2025, 1, 1, 10, 0, 0⟩ :=
  ⟨rfl, by decide, rfl⟩

/-- C9 amended: the fallback (caller default, else `now`) is returned
exactly on exceptions; for a string without `TZID=`, containing `'T'` but
shorter than 15 characters, or without `'T'` and shorter than 8
(including the empty string), the function returns no value, bypassing
the fallback; a `TZID=` string without a colon raises and gets the
fallback; a `TZID=` string with a colon has the same short-string rule
applied to the part after the first colon. -/
theorem short_datetime_returns_none (s : String) (d : Option PyDateTime)
    (now : PyDateTime) :
    (hasSubstr s "TZID=" = false →
      ((strHasChar s 'T' = true ∧ s.length < 15) ∨
       (strHasChar s 'T' = false ∧ s.length < 8)) →
      parse_ics_datetime s d now = none)
    ∧ (hasSubstr s "TZID=" = true → strHasChar s ':' = false →
      parse_ics_datetime s d now = some (d.getD now))
    ∧ (hasSubstr s "TZID=" = true → strHasChar s ':' = true →
      ((strHasChar (afterChar s ':') 'T' = true
          ∧ (afterChar s ':').length < 15) ∨
       (strHasChar (afterChar s ':') 'T' = false
          ∧ (afterChar s ':').length < 8)) →
      parse_ics_datetime s d now = none) := by
  refine ⟨?_, ?_, ?_⟩
  · intro hz hc
    rcases hc with ⟨ht, hl⟩ | ⟨ht, hl⟩
    · simp [parse_ics_datetime, hz, ht, Nat.not_le.mpr hl]
    · simp [parse_ics_datetime, hz, ht, Nat.not_le.mpr hl]
  · intro hz hcol
    simp [parse_ics_datetime, tzStrip, hz, hcol]
  · intro hz hcol hc
    rcases hc with ⟨ht, hl⟩ | ⟨ht, hl⟩
    · simp [parse_ics_datetime, tzStrip, hz, hcol, ht, Nat.not_le.mpr hl]
    · simp [parse_ics_datetime, tzStrip, hz, hcol, ht, Nat.not_le.mpr hl]

/-- Witness for the amended C9: the empty string (no `'T'`, length 0) and
a `TZID=`-prefixed string whose post-colon part is short both return no
value. -/
theorem short_datetime_returns_none_witness :
    parse_ics_datetime "" (some ⟨2024, 8, 26, 11, 0, 0⟩)
        ⟨2026, 1, 1, 0, 0, 0⟩ = none
    ∧ parse_ics_datetime "TZID=A:B" (some ⟨2024, 8, 26, 11, 0, 0⟩)
        ⟨2026, 1, 1, 0, 0, 0⟩ = none :=
  ⟨(short_datetime_returns_none "" (some ⟨2024, 8, 26, 11, 0, 0⟩)
      ⟨2026, 1, 1, 0, 0, 0⟩).1 rfl (Or.inr ⟨rfl, by decide⟩),
   (short_datetime_returns_none "TZID=A:B" (some ⟨2024, 8, 26, 11, 0, 0⟩)
      ⟨2026, 1, 1, 0, 0, 0⟩).2.2 rfl rfl (Or.inr ⟨rfl, by decide⟩)⟩
